import Mathlib

/- Verification development for the schema-modeler core of this repository:
   identifier quoting (modeler/databricks_client.py), the information-schema
   constraint resolver and graph builder, model conversion and DDL generation
   (modeler/erd.py), and the design-model table-removal handler (app.py).

   Rowsets are embedded as lists of records.  pandas groupby is modelled as
   grouping with the group keys in sorted order (pandas sorts group keys);
   sort_values("ordinal_position") is modelled as a stable sort on the
   ordinal (pandas leaves the relative order of equal sort keys unspecified;
   the stable choice only matters where a theorem says so explicitly). -/

/-- The backtick character (U+0060), the Databricks identifier quote. -/
def btChar : Char := Char.ofNat 96

/-- Python str.strip over the character list (whitespace at both ends). -/
def pyStrip (s : String) : String :=
  ⟨((s.data.dropWhile Char.isWhitespace).reverse.dropWhile Char.isWhitespace).reverse⟩

/-- Python str.upper, as applied to constraint_type / is_nullable values. -/
def pyUpper (s : String) : String := ⟨s.data.map Char.toUpper⟩

/-- Python sep.join(parts). -/
def strJoin (sep : String) : List String → String
  | [] => ""
  | [x] => x
  | x :: y :: xs => x ++ sep ++ strJoin sep (y :: xs)

/-- Python ident.replace(backtick, two backticks), over the character list. -/
def escBt : List Char → List Char
  | [] => []
  | c :: cs => if c = btChar then btChar :: btChar :: escBt cs else c :: escBt cs

/-- quote_ident (databricks_client.py:145-148): wrap in backticks, doubling
    embedded backticks. -/
def quote_ident (ident : String) : String := ⟨btChar :: (escBt ident.data ++ [btChar])⟩

/-- quote_3part (databricks_client.py:151-154) with a table argument present,
    the only form the erd.py builders use. -/
def quote_3part (catalog schema table : String) : String :=
  quote_ident catalog ++ "." ++ quote_ident schema ++ "." ++ quote_ident table

/-- Number of backticks in a character list. -/
def countBtL : List Char → Nat
  | [] => 0
  | c :: cs => (if c = btChar then 1 else 0) + countBtL cs

/-- Number of backticks in a string. -/
def countBt (s : String) : Nat := countBtL s.data

/-- The pattern occurs at the head of the list. -/
def listIsPre : List Char → List Char → Bool
  | [], _ => true
  | _ :: _, [] => false
  | p :: ps, c :: cs => decide (p = c) && listIsPre ps cs

/-- The pattern occurs somewhere inside the list. -/
def listHasSub (pat : List Char) : List Char → Bool
  | [] => listIsPre pat []
  | c :: cs => listIsPre pat (c :: cs) || listHasSub pat cs

/-- The pattern string occurs as a contiguous substring of s. -/
def strHasSub (s pat : String) : Bool := listHasSub pat.data s.data

/-- Row of the columns rowset fetched by fetch_columns (databricks_client.py:114-120). -/
structure ColumnRow where
  table_name : String
  column_name : String
  data_type : String
  is_nullable : String
  ordinal_position : Nat
deriving DecidableEq

/-- Row of the table_constraints rowset (databricks_client.py:123-127). -/
structure TcRow where
  table_name : String
  constraint_name : String
  constraint_type : String
deriving DecidableEq

/-- Row of the key_column_usage rowset (databricks_client.py:128-132). -/
structure KcuRow where
  constraint_name : String
  table_name : String
  column_name : String
  ordinal_position : Nat
deriving DecidableEq

/-- Row of the referential_constraints rowset (databricks_client.py:133-137);
    unique_constraint_name is nullable. -/
structure RcRow where
  constraint_name : String
  unique_constraint_name : Option String
deriving DecidableEq

/-- The four rowsets consumed by fetch_model_metadata (erd.py:8-10). -/
structure RawMeta where
  columns : List ColumnRow
  tc : List TcRow
  kcu : List KcuRow
  rc : List RcRow
deriving DecidableEq

/-- Stable sort of rowset rows by a Nat key: models sort_values("ordinal_position"). -/
def sortByNat (ord : α → Nat) (l : List α) : List α :=
  l.insertionSort (fun a b => ord a ≤ ord b)

/-- First-occurrence duplicate removal, the Python dict/set key and
    drop_duplicates behaviour. -/
def dedupSeen [DecidableEq α] (seen : List α) : List α → List α
  | [] => []
  | a :: as => if a ∈ seen then dedupSeen seen as else a :: dedupSeen (a :: seen) as

/-- Duplicate removal keeping first occurrences. -/
def dedupFirst [DecidableEq α] (l : List α) : List α := dedupSeen [] l

/-- Code-point order on character lists, the order Python uses on str. -/
def charsLeB : List Char → List Char → Bool
  | [], _ => true
  | _ :: _, [] => false
  | a :: as, b :: bs =>
    if a.toNat < b.toNat then true
    else if b.toNat < a.toNat then false
    else charsLeB as bs

/-- Code-point order on strings. -/
def strLeB (a b : String) : Bool := charsLeB a.data b.data

/-- The distinct group keys in sorted order (pandas groupby sorts its keys). -/
def sortedKeys (keys : List String) : List String :=
  dedupFirst (keys.insertionSort (fun a b => strLeB a b = true))

/-- groupby(key) with sort_values(ord) applied inside each group. -/
def groupSort (key : α → String) (ord : α → Nat) (rows : List α) : List (String × List α) :=
  (sortedKeys (rows.map key)).map
    (fun k => (k, sortByNat ord (rows.filter (fun r => decide (key r = k)))))

/-- dict lookup; keys are distinct wherever this is used. -/
def lookupAssoc (m : List (String × β)) (k : String) : Option β :=
  (m.find? (fun p => decide (p.1 = k))).map (fun p => p.2)

/-- dict built by inserting pairs in list order: for duplicate keys the later
    pair wins, as in a Python dict comprehension. -/
def lookupLast : List (String × String) → String → Option String
  | [], _ => none
  | p :: ps, k =>
    match lookupLast ps k with
    | some v => some v
    | none => if p.1 = k then some p.2 else none

/-- Names of PRIMARY KEY constraints (erd.py:17-19). -/
def pkConstraints (tc : List TcRow) : List String :=
  (tc.filter (fun r => decide (pyUpper r.constraint_type = "PRIMARY KEY"))).map
    (fun r => r.constraint_name)

/-- key_column_usage rows that belong to primary-key constraints (erd.py:20). -/
def pkKcu (raw : RawMeta) : List KcuRow :=
  raw.kcu.filter (fun r => decide (r.constraint_name ∈ pkConstraints raw.tc))

/-- pk_by_table (erd.py:21-24): table name to ordinal-ordered primary-key columns. -/
def pk_by_table (raw : RawMeta) : List (String × List String) :=
  (groupSort (fun r => r.table_name) (fun r => r.ordinal_position) (pkKcu raw)).map
    (fun p => (p.1, p.2.map (fun r => r.column_name)))

/-- Names of FOREIGN KEY constraints (erd.py:27-29). -/
def fkConstraints (tc : List TcRow) : List String :=
  (tc.filter (fun r => decide (pyUpper r.constraint_type = "FOREIGN KEY"))).map
    (fun r => r.constraint_name)

/-- child_kcu (erd.py:30). -/
def childKcu (raw : RawMeta) : List KcuRow :=
  raw.kcu.filter (fun r => decide (r.constraint_name ∈ fkConstraints raw.tc))

/-- unique_constraints (erd.py:34): referenced parent constraint names with
    nulls dropped (an empty-string name is not null and stays). -/
def uniqueConstraints (rc : List RcRow) : List String :=
  rc.filterMap (fun r => r.unique_constraint_name)

/-- unique_tc (erd.py:35-37): (constraint, table) pairs of the referenced
    constraints with exact duplicate pairs dropped, first kept. -/
def uniqueTc (raw : RawMeta) : List (String × String) :=
  dedupFirst ((raw.tc.filter (fun r => decide (r.constraint_name ∈ uniqueConstraints raw.rc))).map
    (fun r => (r.constraint_name, r.table_name)))

/-- parent_kcu (erd.py:38). -/
def parentKcu (raw : RawMeta) : List KcuRow :=
  raw.kcu.filter (fun r => decide (r.constraint_name ∈ uniqueConstraints raw.rc))

/-- parent_cols_by_constraint (erd.py:40-44). -/
def parentColsBy (raw : RawMeta) : List (String × List String) :=
  (groupSort (fun r => r.constraint_name) (fun r => r.ordinal_position) (parentKcu raw)).map
    (fun p => (p.1, p.2.map (fun r => r.column_name)))

/-- The ordinal-ordered child-side rows of one foreign-key constraint (erd.py:57). -/
def childGroup (raw : RawMeta) (fk_name : String) : List KcuRow :=
  sortByNat (fun r => r.ordinal_position)
    ((childKcu raw).filter (fun r => decide (r.constraint_name = fk_name)))

/-- child_cols of one foreign-key constraint (erd.py:58). -/
def childColsOf (raw : RawMeta) (fk_name : String) : List String :=
  (childGroup raw fk_name).map (fun r => r.column_name)

/-- parent_table_by_constraint lookup (erd.py:46-48, 60): dict comprehension
    over unique_tc, so a later row with the same key wins; missing keys give "". -/
def parentTableOf (raw : RawMeta) (uk : String) : String :=
  (lookupLast (uniqueTc raw) uk).getD ""

/-- parent_cols_by_constraint lookup with default [] (erd.py:59). -/
def parentColsOf (raw : RawMeta) (uk : String) : List String :=
  (lookupAssoc (parentColsBy raw) uk).getD []

/-- A resolved relationship tuple (erd.py:50-51). -/
structure FkRel where
  child_table : String
  parent_table : String
  child_cols : List String
  parent_cols : List String
  fk_name : String
deriving DecidableEq

/-- One iteration of the relationship loop (erd.py:52-62) for one
    referential_constraints row.  Python's `not uk_name` is true for both a
    null and an empty-string unique_constraint_name. -/
def emitRel (raw : RawMeta) (rcrow : RcRow) : Option FkRel :=
  match rcrow.unique_constraint_name with
  | none => none
  | some uk =>
    if uk = "" then none
    else if rcrow.constraint_name ∈ fkConstraints raw.tc then
      match childGroup raw rcrow.constraint_name with
      | [] => none
      | cg0 :: _ =>
        if parentTableOf raw uk ≠ "" ∧ parentColsOf raw uk ≠ [] ∧
            (childColsOf raw rcrow.constraint_name).length = (parentColsOf raw uk).length
        then some ⟨cg0.table_name, parentTableOf raw uk,
                   childColsOf raw rcrow.constraint_name, parentColsOf raw uk,
                   rcrow.constraint_name⟩
        else none
    else none

/-- relationships (erd.py:51-62). -/
def relationshipsOf (raw : RawMeta) : List FkRel := raw.rc.filterMap (emitRel raw)

/-- One column of a composed table (erd.py:73-81). -/
structure MetaCol where
  name : String
  data_type : String
  is_nullable : Bool
  is_pk : Bool
  is_fk : Bool
deriving DecidableEq

/-- One composed table (erd.py:82). -/
structure TableEntry where
  columns : List MetaCol
  pk_columns : List String
deriving DecidableEq

/-- The result of fetch_model_metadata (erd.py:84). -/
structure Metadata where
  tables : List (String × TableEntry)
  relationships : List FkRel
deriving DecidableEq

/-- pk_cols of one table in the composition loop (erd.py:68). -/
def tablePkCols (raw : RawMeta) (t : String) : List String :=
  (lookupAssoc (pk_by_table raw) t).getD []

/-- fk_cols_set of one table in the composition loop (erd.py:70): the
    concatenated child columns of the relationships whose child is t. -/
def tableFkCols (raw : RawMeta) (t : String) : List String :=
  (((relationshipsOf raw).filter (fun rel => decide (rel.child_table = t))).map
    FkRel.child_cols).flatten

/-- One composed column (erd.py:71-81). -/
def composeCol (raw : RawMeta) (t : String) (row : ColumnRow) : MetaCol :=
  { name := row.column_name
    data_type := row.data_type
    is_nullable := decide (pyUpper row.is_nullable = "YES")
    is_pk := decide (row.column_name ∈ tablePkCols raw t)
    is_fk := decide (row.column_name ∈ tableFkCols raw t) }

/-- One composed table (erd.py:66-82).  list(set(pk_cols)) is embedded as
    duplicate removal; CPython set iteration order is hash-dependent and no
    theorem below depends on the order of pk_columns. -/
def composeTable (raw : RawMeta) (p : String × List ColumnRow) : String × TableEntry :=
  (p.1, { columns := p.2.map (composeCol raw p.1)
          pk_columns := dedupFirst (tablePkCols raw p.1) })

/-- The table-composition loop (erd.py:64-82). -/
def tablesOf (raw : RawMeta) : List (String × TableEntry) :=
  (groupSort (fun r => r.table_name) (fun r => r.ordinal_position) raw.columns).map
    (composeTable raw)

/-- fetch_model_metadata (erd.py:8-84) over already-fetched rowsets. -/
def fetch_model_metadata (raw : RawMeta) : Metadata :=
  { tables := tablesOf raw, relationships := relationshipsOf raw }

/-- Design-model column (erd.py:93-98). -/
structure ModelCol where
  name : String
  data_type : String
  nullable : Bool
  is_pk : Bool
deriving DecidableEq

/-- Design-model relationship (erd.py:104-110). -/
structure ModelRel where
  name : String
  child_table : String
  parent_table : String
  child_cols : List String
  parent_cols : List String
deriving DecidableEq

/-- The client-side design model (erd.py:111, app.py:258). -/
structure DesignModel where
  tables : List (String × List ModelCol)
  relationships : List ModelRel
deriving DecidableEq

/-- metadata_to_model (erd.py:87-111). -/
def metadata_to_model (m : Metadata) : DesignModel :=
  { tables := m.tables.map (fun p =>
      (p.1, p.2.columns.map (fun c =>
        { name := c.name, data_type := c.data_type,
          nullable := c.is_nullable, is_pk := c.is_pk }))),
    relationships := m.relationships.map (fun r =>
      { name := r.fk_name, child_table := r.child_table, parent_table := r.parent_table,
        child_cols := r.child_cols, parent_cols := r.parent_cols }) }

/-- Column spec passed to build_create_table_sql (erd.py:222-228). -/
structure SqlCol where
  name : String
  data_type : String
  nullable : Bool
deriving DecidableEq

/-- build_fk_sql (erd.py:195-211). -/
def build_fk_sql (catalog schema child_table parent_table : String)
    (child_cols parent_cols : List String) (constraint_name : String) : String :=
  "ALTER TABLE " ++ quote_3part catalog schema child_table ++ " ADD CONSTRAINT `" ++
    constraint_name ++ "` FOREIGN KEY (" ++
    strJoin ", " (child_cols.map (fun c => "`" ++ c ++ "`")) ++
    ") REFERENCES " ++ quote_3part catalog schema parent_table ++ " (" ++
    strJoin ", " (parent_cols.map (fun c => "`" ++ c ++ "`")) ++ ")"

/-- build_create_table_sql (erd.py:214-236). -/
def build_create_table_sql (catalog schema table_name : String) (columns : List SqlCol)
    (primary_key_cols : List String) (if_not_exists : Bool) : String :=
  let cols_sql := columns.map (fun col =>
    "`" ++ col.name ++ "` " ++ pyStrip col.data_type ++
      (if col.nullable then "" else " NOT NULL"))
  let pk_sql :=
    if primary_key_cols = [] then ""
    else ", CONSTRAINT `pk_" ++ table_name ++ "` PRIMARY KEY (" ++
      strJoin ", " (primary_key_cols.map (fun c => "`" ++ c ++ "`")) ++ ")"
  "CREATE TABLE " ++ (if if_not_exists then "IF NOT EXISTS " else "") ++
    quote_3part catalog schema table_name ++ " (\n  " ++
    strJoin ",\n  " cols_sql ++ pk_sql ++ "\n)"

/-- The columns kept by generate_sql_from_model's validity filter (erd.py:242-246):
    non-empty stripped name and non-empty stripped data type. -/
def validCols (cols : List ModelCol) : List SqlCol :=
  (cols.filter (fun c => decide (pyStrip c.name ≠ "" ∧ pyStrip c.data_type ≠ ""))).map
    (fun c => { name := c.name, data_type := c.data_type, nullable := c.nullable })

/-- The primary-key names kept by generate_sql_from_model (erd.py:247):
    is_pk set and non-empty stripped name, independent of the data type. -/
def pkColsOf (cols : List ModelCol) : List String :=
  (cols.filter (fun c => c.is_pk && decide (pyStrip c.name ≠ ""))).map (fun c => c.name)

/-- Python enumerate(xs) starting at n. -/
def enumFromN (n : Nat) : List α → List (Nat × α)
  | [] => []
  | a :: as => (n, a) :: enumFromN (n + 1) as

/-- The constraint-name choice of the relationship loop (erd.py:251): Python's
    `r.get("name") or default` falls back exactly when the stored name is "". -/
def fkNameFor (idx : Nat) (r : ModelRel) : String :=
  if r.name = "" then
    "fk_" ++ r.child_table ++ "_" ++ r.parent_table ++ "_" ++ Nat.repr (idx + 1)
  else r.name

/-- Body of the create-table loop of generate_sql_from_model (erd.py:241-249). -/
def createStep (catalog schema : String) (acc : List String)
    (p : String × List ModelCol) : List String :=
  if validCols p.2 = [] then acc
  else acc ++ [build_create_table_sql catalog schema p.1 (validCols p.2) (pkColsOf p.2) true]

/-- Body of the foreign-key loop of generate_sql_from_model (erd.py:250-262). -/
def fkStep (catalog schema : String) (acc : List String) (ir : Nat × ModelRel) : List String :=
  acc ++ [build_fk_sql catalog schema ir.2.child_table ir.2.parent_table
    ir.2.child_cols ir.2.parent_cols (fkNameFor ir.1 ir.2)]

/-- generate_sql_from_model (erd.py:239-263): the create-table loop followed by
    the foreign-key loop, both appending to one statement list. -/
def generate_sql_from_model (model : DesignModel) (catalog schema : String) : List String :=
  (enumFromN 0 model.relationships).foldl (fkStep catalog schema)
    (model.tables.foldl (createStep catalog schema) [])

/-- Modelled from the spec (4.4 generateFromModel wording, for comparison with
    the source): one create-table statement for every table with at least one
    valid column, in table-iteration order. -/
def createStmtsSpec (model : DesignModel) (catalog schema : String) : List String :=
  model.tables.filterMap (fun p =>
    if validCols p.2 = [] then none
    else some (build_create_table_sql catalog schema p.1 (validCols p.2) (pkColsOf p.2) true))

/-- Modelled from the spec (4.4 generateFromModel wording, for comparison with
    the source): one add-foreign-key statement per relationship, in sequence
    order. -/
def fkStmtsSpec (model : DesignModel) (catalog schema : String) : List String :=
  (enumFromN 0 model.relationships).map (fun ir =>
    build_fk_sql catalog schema ir.2.child_table ir.2.parent_table
      ir.2.child_cols ir.2.parent_cols (fkNameFor ir.1 ir.2))

/-- The Remove Table handler (app.py:315-320).  The source strips the entered
    name for the membership test and the dictionary delete but compares the
    relationship endpoints against the unstripped text. -/
def remove_table_handler (dm : DesignModel) (table_name : String) : DesignModel :=
  if pyStrip table_name ∈ dm.tables.map Prod.fst then
    { tables := dm.tables.filter (fun p => decide (p.1 ≠ pyStrip table_name)),
      relationships := dm.relationships.filter (fun r =>
        decide (r.child_table ≠ table_name ∧ r.parent_table ≠ table_name)) }
  else dm

/-- Rowsets of the orders/users scenario, used as concrete witness input. -/
def rawEx : RawMeta :=
  { columns := [⟨"orders", "id", "BIGINT", "NO", 1⟩, ⟨"orders", "user_id", "BIGINT", "NO", 2⟩,
                ⟨"users", "id", "BIGINT", "NO", 1⟩],
    tc := [⟨"orders", "pk_orders", "PRIMARY KEY"⟩, ⟨"users", "pk_users", "PRIMARY KEY"⟩,
           ⟨"orders", "fk_orders_users", "FOREIGN KEY"⟩],
    kcu := [⟨"pk_orders", "orders", "id", 1⟩, ⟨"pk_users", "users", "id", 1⟩,
            ⟨"fk_orders_users", "orders", "user_id", 1⟩],
    rc := [⟨"fk_orders_users", some "pk_users"⟩] }

/-- Design model used to exercise the Remove Table handler. -/
def dmRemoveEx : DesignModel :=
  { tables := [("users", [⟨"id", "BIGINT", false, true⟩]),
               ("orders", [⟨"id", "BIGINT", false, true⟩, ⟨"user_id", "BIGINT", true, false⟩])],
    relationships := [⟨"fk_orders_users", "orders", "users", ["user_id"], ["id"]⟩] }

/-- Design model with an invalid (empty-typed) column and one unnamed relationship. -/
def dmEx : DesignModel :=
  { tables := [("orders", [⟨"id", "BIGINT", false, true⟩, ⟨"note", "", true, false⟩])],
    relationships := [⟨"", "orders", "users", ["user_id"], ["id"]⟩] }

/-- Rowsets for the relationship-order counterexample: two resolvable foreign
    keys whose referential_constraints rows arrive in one order. -/
def rawPermRc1 : RawMeta :=
  { columns := [],
    tc := [⟨"p", "pk_p", "PRIMARY KEY"⟩, ⟨"c", "fk1", "FOREIGN KEY"⟩, ⟨"c", "fk2", "FOREIGN KEY"⟩],
    kcu := [⟨"pk_p", "p", "x", 1⟩, ⟨"fk1", "c", "a", 1⟩, ⟨"fk2", "c", "b", 1⟩],
    rc := [⟨"fk1", some "pk_p"⟩, ⟨"fk2", some "pk_p"⟩] }

/-- The same rowsets with the two referential_constraints rows swapped. -/
def rawPermRc2 : RawMeta :=
  { rawPermRc1 with rc := [⟨"fk2", some "pk_p"⟩, ⟨"fk1", some "pk_p"⟩] }

/-- Rowsets for the parent-resolution counterexample: two table_constraints
    rows carry the same constraint name for different tables. -/
def rawPermTc1 : RawMeta :=
  { columns := [],
    tc := [⟨"t1", "u", "PRIMARY KEY"⟩, ⟨"t2", "u", "PRIMARY KEY"⟩, ⟨"c", "f", "FOREIGN KEY"⟩],
    kcu := [⟨"u", "t1", "x", 1⟩, ⟨"f", "c", "a", 1⟩],
    rc := [⟨"f", some "u"⟩] }

/-- The same rowsets with the two primary-key table_constraints rows swapped. -/
def rawPermTc2 : RawMeta :=
  { rawPermTc1 with
    tc := [⟨"t2", "u", "PRIMARY KEY"⟩, ⟨"t1", "u", "PRIMARY KEY"⟩, ⟨"c", "f", "FOREIGN KEY"⟩] }

/-- Rowsets for the ordinal-tie counterexample: two columns of one table share
    an ordinal position. -/
def rawPermCols1 : RawMeta :=
  { columns := [⟨"t", "a", "INT", "YES", 1⟩, ⟨"t", "b", "INT", "YES", 1⟩],
    tc := [], kcu := [], rc := [] }

/-- The same rowsets with the two tied column rows swapped. -/
def rawPermCols2 : RawMeta :=
  { rawPermCols1 with columns := [⟨"t", "b", "INT", "YES", 1⟩, ⟨"t", "a", "INT", "YES", 1⟩] }

/-- rawEx with its columns and key_column_usage rowsets permuted. -/
def rawEx2 : RawMeta :=
  { columns := [⟨"orders", "user_id", "BIGINT", "NO", 2⟩, ⟨"users", "id", "BIGINT", "NO", 1⟩,
                ⟨"orders", "id", "BIGINT", "NO", 1⟩],
    tc := rawEx.tc,
    kcu := [⟨"fk_orders_users", "orders", "user_id", 1⟩, ⟨"pk_orders", "orders", "id", 1⟩,
            ⟨"pk_users", "users", "id", 1⟩],
    rc := rawEx.rc }


lemma countBtL_append (l₁ l₂ : List Char) :
    countBtL (l₁ ++ l₂) = countBtL l₁ + countBtL l₂ := by
  induction l₁ with
  | nil => simp [countBtL]
  | cons c cs ih => simp [countBtL, ih]; omega

lemma countBtL_escBt (l : List Char) : countBtL (escBt l) = 2 * countBtL l := by
  induction l with
  | nil => simp [escBt, countBtL]
  | cons c cs ih =>
    by_cases h : c = btChar
    · simp [escBt, countBtL, h, ih]; omega
    · simp [escBt, countBtL, h, ih]

lemma countBt_quote_ident (s : String) : countBt (quote_ident s) = 2 * countBt s + 2 := by
  show countBtL (btChar :: (escBt s.data ++ [btChar])) = 2 * countBtL s.data + 2
  simp [countBtL, countBtL_append, countBtL_escBt]
  omega

/-- C1 (corrected): at a concrete call, a backtick embedded in a column name or
    in a constraint name is emitted verbatim between the wrapping backticks,
    not doubled, in both DDL builders. -/
theorem c1_backtick_counterexample :
    build_fk_sql "cat" "sch" "t" "p" ["a`b"] ["x"] "k`q" =
      "ALTER TABLE `cat`.`sch`.`t` ADD CONSTRAINT `k`q` FOREIGN KEY (`a`b`) REFERENCES `cat`.`sch`.`p` (`x`)"
    ∧ strHasSub (build_fk_sql "cat" "sch" "t" "p" ["a`b"] ["x"] "k`q") "a``b" = false
    ∧ strHasSub (build_fk_sql "cat" "sch" "t" "p" ["a`b"] ["x"] "k`q") "k``q" = false
    ∧ strHasSub (build_create_table_sql "cat" "sch" "t" [⟨"a`b", "INT", true⟩] [] true) "a``b" = false
    ∧ strHasSub (build_create_table_sql "cat" "sch" "t" [⟨"a`b", "INT", true⟩] [] true) "a`b" = true := by
  refine ⟨by decide, by decide, by decide, by decide, by decide⟩

/-- C1 (amended): only the catalog, schema and table identifiers are quoted
    through quote_ident, which doubles embedded backticks (the backtick count
    equation); column names and the constraint name are spliced verbatim
    between single wrapping backticks in both builders. -/
theorem c1_quoting_amended :
    (∀ s, countBt (quote_ident s) = 2 * countBt s + 2)
    ∧ (∀ catalog schema tbl ptbl c x k,
        build_fk_sql catalog schema tbl ptbl [c] [x] k =
          "ALTER TABLE " ++ quote_3part catalog schema tbl ++ " ADD CONSTRAINT `" ++ k ++
            "` FOREIGN KEY (" ++ ("`" ++ c ++ "`") ++ ") REFERENCES " ++
            quote_3part catalog schema ptbl ++ " (" ++ ("`" ++ x ++ "`") ++ ")")
    ∧ (∀ catalog schema tbl n d,
        build_create_table_sql catalog schema tbl [⟨n, d, true⟩] [] true =
          "CREATE TABLE IF NOT EXISTS " ++ quote_3part catalog schema tbl ++ " (\n  " ++
            ("`" ++ n ++ "` " ++ pyStrip d) ++ "\n)") := by
  refine ⟨countBt_quote_ident, ?_, ?_⟩
  · intro catalog schema tbl ptbl c x k
    simp [build_fk_sql, strJoin, String.append_assoc]
  · intro catalog schema tbl n d
    simp [build_create_table_sql, strJoin, String.append_assoc]

/-- C2 (corrected): build_create_table_sql itself performs no filtering — called
    directly with an empty-named or empty-typed column it emits a clause for it,
    and with an empty column list it still returns a statement. -/
theorem c2_unfiltered_counterexample :
    build_create_table_sql "cat" "sch" "t" [⟨"", "INT", true⟩, ⟨"c2", " ", true⟩] [] true =
      "CREATE TABLE IF NOT EXISTS `cat`.`sch`.`t` (\n  `` INT,\n  `c2` \n)"
    ∧ strHasSub (build_create_table_sql "cat" "sch" "t" [⟨"", "INT", true⟩, ⟨"c2", " ", true⟩] [] true)
        "`` INT" = true
    ∧ build_create_table_sql "cat" "sch" "t" [] [] true =
        "CREATE TABLE IF NOT EXISTS `cat`.`sch`.`t` (\n  \n)" := by
  refine ⟨by decide, by decide, by decide⟩

/-- C4 (corrected): the claim's one-line CREATE TABLE text is not what
    build_create_table_sql returns for the scenario — the actual output joins
    column clauses with a newline and two-space indentation. -/
theorem c4_exact_text_counterexample :
    build_create_table_sql "cat" "sch" "orders"
        [⟨"id", "BIGINT", false⟩, ⟨"user_id", "BIGINT", false⟩] ["id"] true ≠
      "CREATE TABLE IF NOT EXISTS `cat`.`sch`.`orders` (`id` BIGINT NOT NULL, `user_id` BIGINT NOT NULL, CONSTRAINT `pk_orders` PRIMARY KEY (`id`))" := by
  decide

/-- C4 (amended): for the fixed orders/users scenario, createTable returns the
    claimed text except that the column clauses are separated by a newline and
    two spaces (and a newline precedes the closing parenthesis), and
    addForeignKey returns exactly the claimed ALTER TABLE text. -/
theorem c4_scenario_amended :
    build_create_table_sql "cat" "sch" "orders"
        [⟨"id", "BIGINT", false⟩, ⟨"user_id", "BIGINT", false⟩] ["id"] true =
      "CREATE TABLE IF NOT EXISTS `cat`.`sch`.`orders` (\n  `id` BIGINT NOT NULL,\n  `user_id` BIGINT NOT NULL, CONSTRAINT `pk_orders` PRIMARY KEY (`id`)\n)"
    ∧ build_fk_sql "cat" "sch" "orders" "users" ["user_id"] ["id"] "fk_orders_users" =
      "ALTER TABLE `cat`.`sch`.`orders` ADD CONSTRAINT `fk_orders_users` FOREIGN KEY (`user_id`) REFERENCES `cat`.`sch`.`users` (`id`)" := by
  refine ⟨by decide, by decide⟩

/-- C9 (code bug): entering a table name with surrounding whitespace removes
    the stripped table from the design model but leaves every relationship
    that references it, because the handler compares relationship endpoints
    against the unstripped text; with no whitespace the cascade works. -/
theorem c9_remove_table_cascade_bug :
    (remove_table_handler dmRemoveEx " users").tables.map Prod.fst = ["orders"]
    ∧ (remove_table_handler dmRemoveEx " users").relationships =
        [⟨"fk_orders_users", "orders", "users", ["user_id"], ["id"]⟩]
    ∧ (remove_table_handler dmRemoveEx "users").relationships = [] := by
  refine ⟨by decide, by decide, by decide⟩

lemma foldl_createStep (catalog schema : String) (l : List (String × List ModelCol)) :
    ∀ acc : List String,
    l.foldl (createStep catalog schema) acc =
      acc ++ l.filterMap (fun p =>
        if validCols p.2 = [] then none
        else some (build_create_table_sql catalog schema p.1 (validCols p.2) (pkColsOf p.2) true)) := by
  induction l with
  | nil => intro acc; simp
  | cons p l ih =>
    intro acc
    by_cases h : validCols p.2 = [] <;>
      simp [createStep, h, ih, List.filterMap_cons, List.append_assoc]

lemma foldl_fkStep (catalog schema : String) (l : List (Nat × ModelRel)) :
    ∀ acc : List String,
    l.foldl (fkStep catalog schema) acc =
      acc ++ l.map (fun ir =>
        build_fk_sql catalog schema ir.2.child_table ir.2.parent_table
          ir.2.child_cols ir.2.parent_cols (fkNameFor ir.1 ir.2)) := by
  induction l with
  | nil => intro acc; simp
  | cons ir l ih =>
    intro acc
    simp [fkStep, ih, List.append_assoc]

lemma generate_eq_split (model : DesignModel) (catalog schema : String) :
    generate_sql_from_model model catalog schema =
      createStmtsSpec model catalog schema ++ fkStmtsSpec model catalog schema := by
  simp [generate_sql_from_model, createStmtsSpec, fkStmtsSpec, foldl_createStep, foldl_fkStep]

lemma enumFromN_length (l : List α) : ∀ n, (enumFromN n l).length = l.length := by
  induction l with
  | nil => intro n; simp [enumFromN]
  | cons a as ih => intro n; simp [enumFromN, ih]

lemma createStmtsSpec_length (model : DesignModel) (catalog schema : String) :
    (createStmtsSpec model catalog schema).length =
      (model.tables.filter (fun p => decide (validCols p.2 ≠ []))).length := by
  unfold createStmtsSpec
  induction model.tables with
  | nil => simp
  | cons p l ih =>
    by_cases h : validCols p.2 = [] <;> simp [h, ih, List.filterMap_cons]

/-- C5 (confirmed): generate_sql_from_model is exactly the spec-worded
    create-table statements (one per table with at least one valid column, in
    table-iteration order) followed by the spec-worded foreign-key statements
    (one per relationship, in sequence order), so no foreign-key statement
    precedes any create-table statement. -/
theorem c5_statement_order :
    ∀ (model : DesignModel) (catalog schema : String),
      generate_sql_from_model model catalog schema =
        createStmtsSpec model catalog schema ++ fkStmtsSpec model catalog schema
      ∧ (fkStmtsSpec model catalog schema).length = model.relationships.length
      ∧ (createStmtsSpec model catalog schema).length =
          (model.tables.filter (fun p => decide (validCols p.2 ≠ []))).length := by
  intro model catalog schema
  refine ⟨generate_eq_split model catalog schema, ?_, createStmtsSpec_length model catalog schema⟩
  simp [fkStmtsSpec, enumFromN_length]

lemma enumFromN_getElem? (l : List α) : ∀ (n i : Nat),
    (enumFromN n l)[i]? = (l[i]?).map (fun a => (n + i, a)) := by
  induction l with
  | nil => intro n i; simp [enumFromN]
  | cons a as ih =>
    intro n i
    cases i with
    | zero => simp [enumFromN]
    | succ j =>
      simp only [enumFromN, List.getElem?_cons_succ, ih (n + 1) j]
      have h : n + 1 + j = n + (j + 1) := by omega
      rw [h]

/-- C6 (confirmed): the foreign-key statement emitted for the relationship at
    index i uses the stored constraint name verbatim when it is non-empty, and
    the synthesized name fk_child_parent_(i+1) when the stored name is "". -/
theorem c6_fk_name_synthesis :
    ∀ (model : DesignModel) (catalog schema : String) (i : Nat) (r : ModelRel),
      model.relationships[i]? = some r →
      (generate_sql_from_model model catalog schema)[(createStmtsSpec model catalog schema).length + i]? =
        some (build_fk_sql catalog schema r.child_table r.parent_table r.child_cols r.parent_cols
          (if r.name = "" then
            "fk_" ++ r.child_table ++ "_" ++ r.parent_table ++ "_" ++ Nat.repr (i + 1)
          else r.name)) := by
  intro model catalog schema i r h
  rw [generate_eq_split, List.getElem?_append_right (Nat.le_add_right _ i)]
  simp only [Nat.add_sub_cancel_left]
  unfold fkStmtsSpec
  rw [List.getElem?_map, enumFromN_getElem?]
  simp [h, fkNameFor]

/-- Witness for c6_fk_name_synthesis at a concrete model whose only
    relationship has an empty stored name at index 0. -/
theorem c6_fk_name_synthesis_witness :
    dmEx.relationships[0]? = some ⟨"", "orders", "users", ["user_id"], ["id"]⟩
    ∧ (generate_sql_from_model dmEx "cat" "sch")[(createStmtsSpec dmEx "cat" "sch").length + 0]? =
        some (build_fk_sql "cat" "sch" "orders" "users" ["user_id"] ["id"]
          (if ("" : String) = "" then
            "fk_" ++ "orders" ++ "_" ++ "users" ++ "_" ++ Nat.repr (0 + 1)
          else "")) :=
  ⟨rfl, c6_fk_name_synthesis dmEx "cat" "sch" 0 ⟨"", "orders", "users", ["user_id"], ["id"]⟩ rfl⟩

/-- C2 (amended): the validity filtering happens in generate_sql_from_model
    (and the UI handler), not inside build_create_table_sql — every statement
    it emits is either a foreign-key statement or the create-table statement of
    a model table built from that table's valid columns only, and every column
    surviving the filter has a non-empty stripped name and data type. -/
theorem c2_filter_in_callers :
    (∀ (model : DesignModel) (catalog schema s : String),
        s ∈ generate_sql_from_model model catalog schema →
        s ∈ fkStmtsSpec model catalog schema ∨
        ∃ p, p ∈ model.tables ∧ validCols p.2 ≠ [] ∧
          s = build_create_table_sql catalog schema p.1 (validCols p.2) (pkColsOf p.2) true)
    ∧ (∀ (cols : List ModelCol) (c : SqlCol), c ∈ validCols cols →
        pyStrip c.name ≠ "" ∧ pyStrip c.data_type ≠ "") := by
  constructor
  · intro model catalog schema s hs
    rw [generate_eq_split] at hs
    rcases List.mem_append.1 hs with hc | hf
    · right
      rcases List.mem_filterMap.1 hc with ⟨p, hp, hps⟩
      by_cases h : validCols p.2 = []
      · simp [h] at hps
      · refine ⟨p, hp, h, ?_⟩
        simp [h] at hps
        exact hps.symm
    · left; exact hf
  · intro cols c hc
    rcases List.mem_map.1 hc with ⟨d, hd, rfl⟩
    rcases List.mem_filter.1 hd with ⟨_, hdpred⟩
    have hprops : pyStrip d.name ≠ "" ∧ pyStrip d.data_type ≠ "" := by
      simpa using hdpred
    exact hprops

/-- Witness for c2_filter_in_callers: the single emitted create-table statement
    of a concrete model with one invalid column. -/
theorem c2_filter_in_callers_witness :
    (build_create_table_sql "cat" "sch" "orders"
        (validCols [⟨"id", "BIGINT", false, true⟩, ⟨"note", "", true, false⟩])
        (pkColsOf [⟨"id", "BIGINT", false, true⟩, ⟨"note", "", true, false⟩]) true)
      ∈ generate_sql_from_model dmEx "cat" "sch"
    ∧ ((build_create_table_sql "cat" "sch" "orders"
        (validCols [⟨"id", "BIGINT", false, true⟩, ⟨"note", "", true, false⟩])
        (pkColsOf [⟨"id", "BIGINT", false, true⟩, ⟨"note", "", true, false⟩]) true)
          ∈ fkStmtsSpec dmEx "cat" "sch"
        ∨ ∃ p, p ∈ dmEx.tables ∧ validCols p.2 ≠ [] ∧
            (build_create_table_sql "cat" "sch" "orders"
              (validCols [⟨"id", "BIGINT", false, true⟩, ⟨"note", "", true, false⟩])
              (pkColsOf [⟨"id", "BIGINT", false, true⟩, ⟨"note", "", true, false⟩]) true) =
              build_create_table_sql "cat" "sch" p.1 (validCols p.2) (pkColsOf p.2) true) :=
  ⟨by decide, c2_filter_in_callers.1 dmEx "cat" "sch" _ (by decide)⟩

/-- C10 (confirmed): a column name enters the PRIMARY KEY list exactly on the
    is_pk flag and a non-empty stripped name, independent of the data type, so
    a pk column with empty data type is named in the PRIMARY KEY clause while
    no clause in the emitted column-definition list carries its name. -/
theorem c10_pk_clause_ignores_type :
    ∀ (cols : List ModelCol) (c : ModelCol),
      c ∈ cols → c.is_pk = true → pyStrip c.name ≠ "" → pyStrip c.data_type = "" →
      (∀ d ∈ cols, d.name = c.name → d = c) →
      c.name ∈ pkColsOf cols ∧ ∀ sc ∈ validCols cols, sc.name ≠ c.name := by
  intro cols c hc hpk hname htype huniq
  constructor
  · exact List.mem_map.2 ⟨c, List.mem_filter.2 ⟨hc, by simp [hpk, hname]⟩, rfl⟩
  · intro sc hsc heq
    rcases List.mem_map.1 hsc with ⟨d, hd, rfl⟩
    rcases List.mem_filter.1 hd with ⟨hdmem, hdpred⟩
    have hprops : pyStrip d.name ≠ "" ∧ pyStrip d.data_type ≠ "" := by
      simpa using hdpred
    have hdc : d = c := huniq d hdmem heq
    rw [hdc] at hprops
    exact hprops.2 htype

/-- Witness for c10_pk_clause_ignores_type on a two-column table whose pk
    column has an empty data type. -/
theorem c10_pk_clause_ignores_type_witness :
    (⟨"x", "", true, true⟩ : ModelCol) ∈ [⟨"a", "INT", true, false⟩, (⟨"x", "", true, true⟩ : ModelCol)]
    ∧ ("x" ∈ pkColsOf [⟨"a", "INT", true, false⟩, ⟨"x", "", true, true⟩]
        ∧ ∀ sc ∈ validCols [⟨"a", "INT", true, false⟩, ⟨"x", "", true, true⟩], sc.name ≠ "x") :=
  ⟨by decide,
   c10_pk_clause_ignores_type [⟨"a", "INT", true, false⟩, ⟨"x", "", true, true⟩]
     ⟨"x", "", true, true⟩ (by decide) rfl (by decide) (by decide) (by decide)⟩

/-- C3 (confirmed): every relationship the resolver emits has a non-empty
    child-column list of the same length as the parent-column list; a null
    unique-constraint reference is dropped; for a candidate foreign-key row the
    emission condition is exactly: parent table resolved, child columns
    non-empty, parent columns non-empty, equal lengths; and an unresolvable
    referenced constraint always drops the candidate. -/
theorem c3_resolver_emission :
    (∀ raw : RawMeta, ∀ rel ∈ (fetch_model_metadata raw).relationships,
        rel.child_cols ≠ [] ∧ rel.child_cols.length = rel.parent_cols.length)
    ∧ (∀ (raw : RawMeta) (rcrow : RcRow),
        rcrow.unique_constraint_name = none → emitRel raw rcrow = none)
    ∧ (∀ (raw : RawMeta) (rcrow : RcRow) (uk : String),
        rcrow.unique_constraint_name = some uk → uk ≠ "" →
        rcrow.constraint_name ∈ fkConstraints raw.tc →
        ((emitRel raw rcrow).isSome ↔
          (parentTableOf raw uk ≠ "" ∧ childColsOf raw rcrow.constraint_name ≠ [] ∧
           parentColsOf raw uk ≠ [] ∧
           (childColsOf raw rcrow.constraint_name).length = (parentColsOf raw uk).length)))
    ∧ (∀ (raw : RawMeta) (rcrow : RcRow) (uk : String),
        rcrow.unique_constraint_name = some uk →
        lookupLast (uniqueTc raw) uk = none → emitRel raw rcrow = none) := by
  refine ⟨?_, ?_, ?_, ?_⟩
  · intro raw rel hrel
    rcases List.mem_filterMap.1 hrel with ⟨rcrow, _, hemit⟩
    rcases hu : rcrow.unique_constraint_name with _ | uk
    · simp [emitRel, hu] at hemit
    · simp only [emitRel, hu] at hemit
      by_cases h1 : uk = ""
      · simp [h1] at hemit
      by_cases h2 : rcrow.constraint_name ∈ fkConstraints raw.tc
      · simp only [if_neg h1, if_pos h2] at hemit
        rcases hg : childGroup raw rcrow.constraint_name with _ | ⟨cg0, tl⟩
        · simp [hg] at hemit
        · simp only [hg] at hemit
          by_cases hcond : (parentTableOf raw uk ≠ "" ∧ parentColsOf raw uk ≠ [] ∧
              (childColsOf raw rcrow.constraint_name).length = (parentColsOf raw uk).length)
          · rw [if_pos hcond] at hemit
            have hx := Option.some.inj hemit
            subst hx
            refine ⟨?_, hcond.2.2⟩
            simp [childColsOf, hg]
          · rw [if_neg hcond] at hemit
            exact absurd hemit (by simp)
      · simp [if_neg h1, h2] at hemit
  · intro raw rcrow h
    simp [emitRel, h]
  · intro raw rcrow uk huk hne hmem
    simp only [emitRel, huk]
    rcases hg : childGroup raw rcrow.constraint_name with _ | ⟨cg0, tl⟩
    · simp [if_neg hne, hmem, hg, childColsOf]
    · simp only [if_neg hne, if_pos hmem, hg]
      by_cases hcond : (parentTableOf raw uk ≠ "" ∧ parentColsOf raw uk ≠ [] ∧
          (childColsOf raw rcrow.constraint_name).length = (parentColsOf raw uk).length)
      · simp only [if_pos hcond, Option.isSome_some, true_iff]
        exact ⟨hcond.1, by simp [childColsOf, hg], hcond.2.1, hcond.2.2⟩
      · simp only [if_neg hcond, Option.isSome_none, Bool.false_eq_true, false_iff]
        rintro ⟨hp1, _, hp3, hp4⟩
        exact hcond ⟨hp1, hp3, hp4⟩
  · intro raw rcrow uk huk hlk
    have hpt : parentTableOf raw uk = "" := by simp [parentTableOf, hlk]
    simp only [emitRel, huk]
    by_cases h1 : uk = ""
    · simp [h1]
    by_cases h2 : rcrow.constraint_name ∈ fkConstraints raw.tc
    · simp only [if_neg h1, if_pos h2]
      rcases hg : childGroup raw rcrow.constraint_name with _ | ⟨cg0, tl⟩
      · simp [hg]
      · simp [hg, hpt]
    · simp [if_neg h1, h2]

/-- Witness for c3_resolver_emission: the emission-condition equivalence at the
    concrete orders/users rowsets. -/
theorem c3_resolver_emission_witness :
    (⟨"fk_orders_users", some "pk_users"⟩ : RcRow).unique_constraint_name = some "pk_users"
    ∧ ("pk_users" : String) ≠ ""
    ∧ (⟨"fk_orders_users", some "pk_users"⟩ : RcRow).constraint_name ∈ fkConstraints rawEx.tc
    ∧ ((emitRel rawEx ⟨"fk_orders_users", some "pk_users"⟩).isSome ↔
        (parentTableOf rawEx "pk_users" ≠ "" ∧ childColsOf rawEx "fk_orders_users" ≠ [] ∧
         parentColsOf rawEx "pk_users" ≠ [] ∧
         (childColsOf rawEx "fk_orders_users").length = (parentColsOf rawEx "pk_users").length)) :=
  ⟨rfl, by decide, by decide,
   c3_resolver_emission.2.2.1 rawEx ⟨"fk_orders_users", some "pk_users"⟩ "pk_users"
     rfl (by decide) (by decide)⟩

lemma mem_dedupSeen [DecidableEq α] (x : α) :
    ∀ (l seen : List α), x ∈ dedupSeen seen l ↔ x ∈ l ∧ x ∉ seen := by
  intro l
  induction l with
  | nil => intro seen; simp [dedupSeen]
  | cons a as ih =>
    intro seen
    by_cases h : a ∈ seen
    · simp only [dedupSeen, if_pos h, ih, List.mem_cons]
      constructor
      · exact fun ⟨h1, h2⟩ => ⟨Or.inr h1, h2⟩
      · rintro ⟨h1 | h1, h2⟩
        · exact absurd (h1 ▸ h) h2
        · exact ⟨h1, h2⟩
    · simp only [dedupSeen, if_neg h, List.mem_cons, ih, List.mem_cons, not_or]
      constructor
      · rintro (rfl | ⟨h1, h2, h3⟩)
        · exact ⟨Or.inl rfl, h⟩
        · exact ⟨Or.inr h1, h3⟩
      · rintro ⟨h1 | h1, h2⟩
        · exact Or.inl h1
        · by_cases hxa : x = a
          · exact Or.inl hxa
          · exact Or.inr ⟨h1, hxa, h2⟩

lemma mem_dedupFirst [DecidableEq α] {x : α} {l : List α} :
    x ∈ dedupFirst l ↔ x ∈ l := by
  simp [dedupFirst, mem_dedupSeen]

lemma mem_sortedKeys {k : String} {keys : List String} :
    k ∈ sortedKeys keys ↔ k ∈ keys := by
  simp [sortedKeys, mem_dedupFirst, List.mem_insertionSort]

lemma validCols_ne_nil {cols : List ModelCol} (hne : cols ≠ [])
    (hall : ∀ c ∈ cols, pyStrip c.name ≠ "" ∧ pyStrip c.data_type ≠ "") :
    validCols cols ≠ [] := by
  unfold validCols
  have hf : cols.filter (fun c => decide (pyStrip c.name ≠ "" ∧ pyStrip c.data_type ≠ "")) = cols :=
    List.filter_eq_self.2 (fun c hc => by simpa using hall c hc)
  rw [hf]
  simpa using hne

lemma mem_tablesOf {raw : RawMeta} {q : String × TableEntry} (hq : q ∈ tablesOf raw) :
    q.2.columns ≠ [] ∧ ∀ c ∈ q.2.columns, ∃ row ∈ raw.columns,
      c.name = row.column_name ∧ c.data_type = row.data_type := by
  unfold tablesOf at hq
  rcases List.mem_map.1 hq with ⟨u, hu, rfl⟩
  unfold groupSort at hu
  rcases List.mem_map.1 hu with ⟨k, hk, rfl⟩
  have hk2 : k ∈ raw.columns.map (fun r => r.table_name) := mem_sortedKeys.1 hk
  rcases List.mem_map.1 hk2 with ⟨r0, hr0, hkey⟩
  have hr0f : r0 ∈ raw.columns.filter (fun r => decide (r.table_name = k)) :=
    List.mem_filter.2 ⟨hr0, by simp [hkey]⟩
  constructor
  · simp only [composeTable, ne_eq, List.map_eq_nil_iff, sortByNat]
    intro hnil
    have hmem : r0 ∈ List.insertionSort (fun (a b : ColumnRow) => a.ordinal_position ≤ b.ordinal_position)
        (raw.columns.filter (fun r => decide (r.table_name = k))) :=
      (List.mem_insertionSort _).2 hr0f
    rw [hnil] at hmem
    simp at hmem
  · intro c hc
    simp only [composeTable] at hc
    rcases List.mem_map.1 hc with ⟨row, hrow, rfl⟩
    have hrow2 : row ∈ raw.columns.filter (fun r => decide (r.table_name = k)) :=
      (List.mem_insertionSort
        (fun (a b : ColumnRow) => a.ordinal_position ≤ b.ordinal_position)).1
        (by simpa [sortByNat] using hrow)
    exact ⟨row, (List.mem_filter.1 hrow2).1, rfl, rfl⟩


lemma model_tables_valid {raw : RawMeta}
    (hall : ∀ row ∈ raw.columns, pyStrip row.column_name ≠ "" ∧ pyStrip row.data_type ≠ "") :
    ∀ p ∈ (metadata_to_model (fetch_model_metadata raw)).tables, validCols p.2 ≠ [] := by
  intro p hp
  simp only [metadata_to_model] at hp
  rcases List.mem_map.1 hp with ⟨q, hq, rfl⟩
  obtain ⟨hne, hprops⟩ := mem_tablesOf (show q ∈ tablesOf raw from hq)
  apply validCols_ne_nil
  · simpa using hne
  · intro c hc
    rcases List.mem_map.1 hc with ⟨mc, hmc, rfl⟩
    rcases hprops mc hmc with ⟨row, hrow, h1, h2⟩
    have hr := hall row hrow
    exact ⟨by simpa [h1] using hr.1, by simpa [h2] using hr.2⟩

/-- C7 (confirmed): when every column row has a non-empty stripped name and
    data type, building the graph, converting it to a design model and
    generating DDL preserves cardinality — one create-table statement per graph
    table and one foreign-key statement per graph relationship. -/
theorem c7_cardinality_preserved :
    ∀ (raw : RawMeta) (catalog schema : String),
      (∀ row ∈ raw.columns, pyStrip row.column_name ≠ "" ∧ pyStrip row.data_type ≠ "") →
      (generate_sql_from_model (metadata_to_model (fetch_model_metadata raw)) catalog schema).length =
          (fetch_model_metadata raw).tables.length + (fetch_model_metadata raw).relationships.length
      ∧ (createStmtsSpec (metadata_to_model (fetch_model_metadata raw)) catalog schema).length =
          (fetch_model_metadata raw).tables.length
      ∧ (fkStmtsSpec (metadata_to_model (fetch_model_metadata raw)) catalog schema).length =
          (fetch_model_metadata raw).relationships.length := by
  intro raw catalog schema hall
  have htab := model_tables_valid hall
  have hcreate : (createStmtsSpec (metadata_to_model (fetch_model_metadata raw)) catalog schema).length =
      (fetch_model_metadata raw).tables.length := by
    rw [createStmtsSpec_length]
    have hfilter : (metadata_to_model (fetch_model_metadata raw)).tables.filter
        (fun p => decide (validCols p.2 ≠ [])) =
        (metadata_to_model (fetch_model_metadata raw)).tables :=
      List.filter_eq_self.2 (fun p hp => by simpa using htab p hp)
    rw [hfilter]
    simp [metadata_to_model]
  have hfk : (fkStmtsSpec (metadata_to_model (fetch_model_metadata raw)) catalog schema).length =
      (fetch_model_metadata raw).relationships.length := by
    simp [fkStmtsSpec, enumFromN_length, metadata_to_model]
  refine ⟨?_, hcreate, hfk⟩
  rw [generate_eq_split, List.length_append, hcreate, hfk]

/-- Witness for c7_cardinality_preserved at the concrete orders/users rowsets. -/
theorem c7_cardinality_preserved_witness :
    (∀ row ∈ rawEx.columns, pyStrip row.column_name ≠ "" ∧ pyStrip row.data_type ≠ "")
    ∧ ((generate_sql_from_model (metadata_to_model (fetch_model_metadata rawEx)) "cat" "sch").length =
        (fetch_model_metadata rawEx).tables.length + (fetch_model_metadata rawEx).relationships.length
      ∧ (createStmtsSpec (metadata_to_model (fetch_model_metadata rawEx)) "cat" "sch").length =
          (fetch_model_metadata rawEx).tables.length
      ∧ (fkStmtsSpec (metadata_to_model (fetch_model_metadata rawEx)) "cat" "sch").length =
          (fetch_model_metadata rawEx).relationships.length) :=
  ⟨by decide, c7_cardinality_preserved rawEx "cat" "sch" (by decide)⟩

lemma charToNat_inj {a b : Char} (h : a.toNat = b.toNat) : a = b :=
  Char.ext (UInt32.ext h)

lemma charsLeB_total : ∀ l1 l2 : List Char, charsLeB l1 l2 = true ∨ charsLeB l2 l1 = true := by
  intro l1
  induction l1 with
  | nil => intro l2; left; simp [charsLeB]
  | cons a as ih =>
    intro l2
    cases l2 with
    | nil => right; simp [charsLeB]
    | cons b bs =>
      by_cases h1 : a.toNat < b.toNat
      · left; simp [charsLeB, h1]
      by_cases h2 : b.toNat < a.toNat
      · right; simp [charsLeB, h2]
      rcases ih bs with h | h
      · left; simp [charsLeB, h1, h2, h]
      · right; simp [charsLeB, h1, h2, h]

lemma charsLeB_trans : ∀ l1 l2 l3 : List Char,
    charsLeB l1 l2 = true → charsLeB l2 l3 = true → charsLeB l1 l3 = true := by
  intro l1
  induction l1 with
  | nil => intro l2 l3 _ _; simp [charsLeB]
  | cons a as ih =>
    intro l2 l3 h12 h23
    cases l2 with
    | nil => simp [charsLeB] at h12
    | cons b bs =>
      cases l3 with
      | nil => simp [charsLeB] at h23
      | cons c cs =>
        simp only [charsLeB] at h12 h23 ⊢
        by_cases hac : a.toNat < c.toNat
        · simp [hac]
        by_cases hca : c.toNat < a.toNat
        · exfalso
          by_cases hab : a.toNat < b.toNat
          · by_cases hbc : b.toNat < c.toNat
            · omega
            · have hcb : c.toNat < b.toNat ∨ c.toNat = b.toNat := by omega
              rcases hcb with hcb | hcb
              · rw [if_neg hbc, if_pos hcb] at h23; exact absurd h23 (by simp)
              · omega
          · by_cases hba : b.toNat < a.toNat
            · rw [if_neg hab, if_pos hba] at h12; exact absurd h12 (by simp)
            · have hcb : c.toNat < b.toNat := by omega
              have hbc : ¬ b.toNat < c.toNat := by omega
              rw [if_neg hbc, if_pos hcb] at h23; exact absurd h23 (by simp)
        · rw [if_neg hac, if_neg hca]
          by_cases hab : a.toNat < b.toNat
          · have hbc : ¬ b.toNat < c.toNat := by omega
            have hcb : c.toNat < b.toNat := by omega
            rw [if_neg hbc, if_pos hcb] at h23
            exact absurd h23 (by simp)
          · by_cases hba : b.toNat < a.toNat
            · rw [if_neg hab, if_pos hba] at h12
              exact absurd h12 (by simp)
            · rw [if_neg hab, if_neg hba] at h12
              have hbc : ¬ b.toNat < c.toNat := by omega
              have hcb : ¬ c.toNat < b.toNat := by omega
              rw [if_neg hbc, if_neg hcb] at h23
              exact ih bs cs h12 h23

lemma charsLeB_antisymm : ∀ l1 l2 : List Char,
    charsLeB l1 l2 = true → charsLeB l2 l1 = true → l1 = l2 := by
  intro l1
  induction l1 with
  | nil =>
    intro l2 _ h21
    cases l2 with
    | nil => rfl
    | cons b bs => simp [charsLeB] at h21
  | cons a as ih =>
    intro l2 h12 h21
    cases l2 with
    | nil => simp [charsLeB] at h12
    | cons b bs =>
      simp only [charsLeB] at h12 h21
      by_cases hab : a.toNat < b.toNat
      · have hba : ¬ b.toNat < a.toNat := by omega
        rw [if_neg hba, if_pos hab] at h21
        exact absurd h21 (by simp)
      · by_cases hba : b.toNat < a.toNat
        · rw [if_neg hab, if_pos hba] at h12
          exact absurd h12 (by simp)
        · rw [if_neg hab, if_neg hba] at h12
          rw [if_neg hba, if_neg hab] at h21
          have hx : a = b := charToNat_inj (by omega)
          rw [hx, ih bs h12 h21]

lemma eq_of_perm_sorted_nodup (ord : α → Nat) :
    ∀ {l1 l2 : List α}, l1.Perm l2 →
      l1.Sorted (fun a b => ord a ≤ ord b) → l2.Sorted (fun a b => ord a ≤ ord b) →
      (l1.map ord).Nodup → l1 = l2 := by
  intro l1
  induction l1 with
  | nil =>
    intro l2 hp _ _ _
    exact (hp.symm.eq_nil).symm
  | cons a t1 ih =>
    intro l2 hp hs1 hs2 hnd
    cases l2 with
    | nil => exact absurd hp.eq_nil (by simp)
    | cons b t2 =>
      have hmap : (a :: t1).map ord = (b :: t2).map ord := by
        haveI : IsAntisymm Nat (· ≤ ·) := ⟨fun _ _ h h2 => Nat.le_antisymm h h2⟩
        exact List.eq_of_perm_of_sorted (hp.map ord)
          ((List.pairwise_map).2 hs1) ((List.pairwise_map).2 hs2)
      have hordab : ord a = ord b := by
        have h := hmap
        simp only [List.map_cons, List.cons.injEq] at h
        exact h.1
      have hab : a = b := by
        have hmem : a ∈ b :: t2 := hp.subset (List.mem_cons_self a t1)
        rcases List.mem_cons.1 hmem with h | h
        · exact h
        · exfalso
          have hnd2 : ((b :: t2).map ord).Nodup := hmap ▸ hnd
          simp only [List.map_cons, List.nodup_cons] at hnd2
          exact hnd2.1 (by rw [← hordab]; exact List.mem_map_of_mem ord h)
      subst hab
      have ht : t1 = t2 := by
        apply ih hp.cons_inv hs1.of_cons hs2.of_cons
        simp only [List.map_cons, List.nodup_cons] at hnd
        exact hnd.2
      rw [ht]

lemma sortByNat_eq_of_perm_nodup (ord : α → Nat) {l1 l2 : List α}
    (hp : l1.Perm l2) (hnd : (l1.map ord).Nodup) :
    sortByNat ord l1 = sortByNat ord l2 := by
  haveI : IsTotal α (fun a b => ord a ≤ ord b) := ⟨fun a b => Nat.le_total _ _⟩
  haveI : IsTrans α (fun a b => ord a ≤ ord b) := ⟨fun _ _ _ h1 h2 => Nat.le_trans h1 h2⟩
  apply eq_of_perm_sorted_nodup ord
  · exact ((List.perm_insertionSort _ l1).trans hp).trans (List.perm_insertionSort _ l2).symm
  · exact List.sorted_insertionSort _ l1
  · exact List.sorted_insertionSort _ l2
  · exact ((List.perm_insertionSort _ l1).map ord).nodup_iff.2 hnd

lemma sortedKeys_eq_of_perm {k1 k2 : List String} (hp : k1.Perm k2) :
    sortedKeys k1 = sortedKeys k2 := by
  unfold sortedKeys
  congr 1
  haveI : IsTotal String (fun a b => strLeB a b = true) :=
    ⟨fun a b => charsLeB_total a.data b.data⟩
  haveI : IsTrans String (fun a b => strLeB a b = true) :=
    ⟨fun a b c h1 h2 => charsLeB_trans a.data b.data c.data h1 h2⟩
  haveI : IsAntisymm String (fun a b => strLeB a b = true) :=
    ⟨fun a b h1 h2 => by
      have hd := charsLeB_antisymm a.data b.data h1 h2
      cases a; cases b; exact congrArg String.mk hd⟩
  exact List.eq_of_perm_of_sorted
    (((List.perm_insertionSort _ k1).trans hp).trans (List.perm_insertionSort _ k2).symm)
    (List.sorted_insertionSort _ k1) (List.sorted_insertionSort _ k2)

lemma groupSort_congr (key : α → String) (ord : α → Nat) {rows1 rows2 : List α}
    (hperm : rows1.Perm rows2)
    (hnd : ∀ k, ((rows1.filter (fun r => decide (key r = k))).map ord).Nodup) :
    groupSort key ord rows1 = groupSort key ord rows2 := by
  unfold groupSort
  rw [sortedKeys_eq_of_perm (hperm.map key)]
  apply List.map_congr_left
  intro k _
  rw [sortByNat_eq_of_perm_nodup ord (hperm.filter _) (hnd k)]

lemma blanket_nodup (key : α → String) (ord : α → Nat) (rows : List α)
    (h : ∀ k ∈ rows.map key, ((rows.filter (fun r => decide (key r = k))).map ord).Nodup) :
    ∀ k, ((rows.filter (fun r => decide (key r = k))).map ord).Nodup := by
  intro k
  by_cases hmem : k ∈ rows.map key
  · exact h k hmem
  · have hnil : rows.filter (fun r => decide (key r = k)) = [] := by
      rw [List.filter_eq_nil_iff]
      intro r hr
      simp only [decide_eq_true_eq]
      intro heq
      exact hmem (List.mem_map.2 ⟨r, hr, heq⟩)
    rw [hnil]
    simp

lemma nodup_filter_filter (p q : α → Bool) (ord : α → Nat) (l : List α)
    (h : ((l.filter q).map ord).Nodup) : (((l.filter p).filter q).map ord).Nodup :=
  List.Nodup.sublist (List.Sublist.map ord ((List.filter_sublist l).filter q)) h

/-- C8 (corrected): row-permutations of the input rowsets do change the
    resolver and builder output.  Swapping two referential_constraints rows
    reorders the relationship sequence; swapping two table_constraints rows
    that share a constraint name changes the resolved parent table; swapping
    two column rows that share an ordinal position changes the column order of
    their table.  In each pair the remaining rowsets are unchanged. -/
theorem c8_arrival_order_counterexample :
    (rawPermRc1.rc.Perm rawPermRc2.rc ∧ rawPermRc1.columns = rawPermRc2.columns ∧
      rawPermRc1.tc = rawPermRc2.tc ∧ rawPermRc1.kcu = rawPermRc2.kcu ∧
      fetch_model_metadata rawPermRc1 ≠ fetch_model_metadata rawPermRc2)
    ∧ (rawPermTc1.tc.Perm rawPermTc2.tc ∧ rawPermTc1.columns = rawPermTc2.columns ∧
      rawPermTc1.kcu = rawPermTc2.kcu ∧ rawPermTc1.rc = rawPermTc2.rc ∧
      fetch_model_metadata rawPermTc1 ≠ fetch_model_metadata rawPermTc2)
    ∧ (rawPermCols1.columns.Perm rawPermCols2.columns ∧ rawPermCols1.tc = rawPermCols2.tc ∧
      rawPermCols1.kcu = rawPermCols2.kcu ∧ rawPermCols1.rc = rawPermCols2.rc ∧
      fetch_model_metadata rawPermCols1 ≠ fetch_model_metadata rawPermCols2) := by
  refine ⟨⟨?_, rfl, rfl, rfl, ?_⟩, ⟨?_, rfl, rfl, rfl, ?_⟩, ⟨?_, rfl, rfl, rfl, ?_⟩⟩ <;> decide

/-- C8 (amended): within every group the output order follows ordinal
    position, and the resolver and builder are insensitive to arrival order of
    the columns and key_column_usage rowsets: for inputs whose columns and
    key_column_usage rowsets are row-permutations of each other, whose
    table_constraints and referential_constraints rowsets are unchanged, and
    whose ordinal positions are duplicate-free within every table group of the
    columns rowset, every constraint group of key_column_usage, and every
    table group of the primary-key rows, fetch_model_metadata gives
    structurally equal results. -/
theorem c8_permutation_invariance_amended :
    ∀ (raw1 raw2 : RawMeta),
      raw1.columns.Perm raw2.columns →
      raw1.kcu.Perm raw2.kcu →
      raw1.tc = raw2.tc →
      raw1.rc = raw2.rc →
      (∀ t ∈ raw1.columns.map (fun r => r.table_name),
        ((raw1.columns.filter (fun r => decide (r.table_name = t))).map
          (fun r => r.ordinal_position)).Nodup) →
      (∀ cn ∈ raw1.kcu.map (fun r => r.constraint_name),
        ((raw1.kcu.filter (fun r => decide (r.constraint_name = cn))).map
          (fun r => r.ordinal_position)).Nodup) →
      (∀ t ∈ (pkKcu raw1).map (fun r => r.table_name),
        (((pkKcu raw1).filter (fun r => decide (r.table_name = t))).map
          (fun r => r.ordinal_position)).Nodup) →
      fetch_model_metadata raw1 = fetch_model_metadata raw2 := by
  intro raw1 raw2 hc hk htc hrc hndc0 hndk0 hndpk0
  have hndc := blanket_nodup (fun r => r.table_name) (fun r => r.ordinal_position)
    raw1.columns hndc0
  have hndk := blanket_nodup (fun r => r.constraint_name) (fun r => r.ordinal_position)
    raw1.kcu hndk0
  have hndpk := blanket_nodup (fun r => r.table_name) (fun r => r.ordinal_position)
    (pkKcu raw1) hndpk0
  have hpkk : (pkKcu raw1).Perm (pkKcu raw2) := by
    unfold pkKcu; rw [← htc]; exact hk.filter _
  have hparentk : (parentKcu raw1).Perm (parentKcu raw2) := by
    unfold parentKcu; rw [← hrc]; exact hk.filter _
  have hpkbt : pk_by_table raw1 = pk_by_table raw2 := by
    unfold pk_by_table
    rw [groupSort_congr _ _ hpkk hndpk]
  have hpcb : parentColsBy raw1 = parentColsBy raw2 := by
    unfold parentColsBy
    rw [groupSort_congr _ _ hparentk ?hnd]
    case hnd =>
      intro cn
      unfold parentKcu
      exact nodup_filter_filter _ _ _ _ (hndk cn)
  have hutc : uniqueTc raw1 = uniqueTc raw2 := by
    unfold uniqueTc; rw [htc, hrc]
  have hchild : ∀ fk, childGroup raw1 fk = childGroup raw2 fk := by
    intro fk
    unfold childGroup childKcu
    rw [← htc]
    apply sortByNat_eq_of_perm_nodup
    · exact (hk.filter _).filter _
    · exact nodup_filter_filter _ _ _ _ (hndk fk)
  have hemit : ∀ rcrow, emitRel raw1 rcrow = emitRel raw2 rcrow := by
    intro rcrow
    have h3 : childColsOf raw1 rcrow.constraint_name = childColsOf raw2 rcrow.constraint_name := by
      unfold childColsOf
      rw [hchild]
    rcases hu : rcrow.unique_constraint_name with _ | uk
    · simp [emitRel, hu]
    · have h4 : parentColsOf raw1 uk = parentColsOf raw2 uk := by
        unfold parentColsOf; rw [hpcb]
      have h5 : parentTableOf raw1 uk = parentTableOf raw2 uk := by
        unfold parentTableOf; rw [hutc]
      simp only [emitRel, hu]
      rw [htc, hchild, h3, h4, h5]
  have hrels : relationshipsOf raw1 = relationshipsOf raw2 := by
    unfold relationshipsOf
    rw [← hrc]
    exact List.filterMap_congr (fun x _ => hemit x)
  have htabs : tablesOf raw1 = tablesOf raw2 := by
    unfold tablesOf
    rw [groupSort_congr _ _ hc hndc]
    apply List.map_congr_left
    intro p _
    unfold composeTable composeCol tablePkCols tableFkCols
    rw [hpkbt, hrels]
  unfold fetch_model_metadata
  rw [htabs, hrels]

/-- Witness for c8_permutation_invariance_amended at the orders/users rowsets
    and a permutation of them. -/
theorem c8_permutation_invariance_amended_witness :
    rawEx.columns.Perm rawEx2.columns
    ∧ rawEx.kcu.Perm rawEx2.kcu
    ∧ rawEx.tc = rawEx2.tc
    ∧ rawEx.rc = rawEx2.rc
    ∧ (∀ t ∈ rawEx.columns.map (fun r => r.table_name),
        ((rawEx.columns.filter (fun r => decide (r.table_name = t))).map
          (fun r => r.ordinal_position)).Nodup)
    ∧ (∀ cn ∈ rawEx.kcu.map (fun r => r.constraint_name),
        ((rawEx.kcu.filter (fun r => decide (r.constraint_name = cn))).map
          (fun r => r.ordinal_position)).Nodup)
    ∧ (∀ t ∈ (pkKcu rawEx).map (fun r => r.table_name),
        (((pkKcu rawEx).filter (fun r => decide (r.table_name = t))).map
          (fun r => r.ordinal_position)).Nodup)
    ∧ fetch_model_metadata rawEx = fetch_model_metadata rawEx2 :=
  ⟨by decide, by decide, rfl, rfl, by decide, by decide, by decide,
   c8_permutation_invariance_amended rawEx rawEx2 (by decide) (by decide) rfl rfl
     (by decide) (by decide) (by decide)⟩
